import Mathlib

/-!
Verification of the extraction-and-scoring core of the Bill-Generator service
(`app.py`, class `BillOCRParser`).  The two functions with decision logic are
`calculate_legitimacy_score` (lines 31-55) and `extract_bill_data`
(lines 57-88); both are embedded below together with the pieces of Python /
stdlib semantics they rely on (dict get/set, truthiness, `str.find`,
`str.rfind`, slicing, `json.loads`).
-/

/-- JSON values as produced by parsing the model response.  Numbers are
modelled as exact rationals: Python distinguishes `int` and `float`, but the
scorer only ever compares a number with `0` (truthiness) or `1` (`== True`),
and both comparisons are by numeric value. -/
inductive JVal where
  | null : JVal
  | bool : Bool → JVal
  | num : Rat → JVal
  | str : String → JVal
  | arr : List JVal → JVal
  | obj : List (String × JVal) → JVal

/-- Python `d.get(k)`: the binding of `k`, `none` when the key is absent.
Dicts are represented as association lists in insertion order; dicts built by
`json.loads` have unique keys. -/
def dictGet (d : List (String × JVal)) (k : String) : Option JVal :=
  (d.find? (fun p => p.1 == k)).map (fun p => p.2)

/-- Python `d[k] = v`: overwrite in place when the key exists (keeping its
position in insertion order), otherwise append at the end. -/
def dictSet (d : List (String × JVal)) (k : String) (v : JVal) : List (String × JVal) :=
  if d.any (fun p => p.1 == k) then
    d.map (fun p => if p.1 == k then (k, v) else p)
  else d ++ [(k, v)]

/-- Python truthiness `bool(v)` of a JSON-decoded value: `None`, `False`,
numeric zero, and empty strings/lists/dicts are falsy. -/
def pyTruthy : JVal → Bool
  | .null => false
  | .bool b => b
  | .num q => !(q == 0)
  | .str s => !s.isEmpty
  | .arr xs => !xs.isEmpty
  | .obj kvs => !kvs.isEmpty

/-- `not data.get(field)` as used by the scorer: the key is absent, or its
value is falsy (this is how absent / `null` / empty are detected). -/
def pyFalsyGet (d : List (String × JVal)) (k : String) : Bool :=
  match dictGet d k with
  | none => true
  | some v => !pyTruthy v

/-- Python `data.get(k) == True`.  Since `bool` is a subclass of `int`,
`1 == True` and `1.0 == True` hold in Python; no other JSON-decodable value
compares equal to `True`. -/
def pyEqTrueGet (d : List (String × JVal)) (k : String) : Bool :=
  match dictGet d k with
  | some (.bool b) => b
  | some (.num q) => q == 1
  | _ => false

/-- `BillOCRParser.calculate_legitimacy_score` (app.py lines 31-55).
`data` is the parsed JSON dict; `width`/`height` come from `image.size`.
Returns the pair (score, reasons) of the returned dict. -/
def calculate_legitimacy_score (data : List (String × JVal)) (width height : Int) :
    Int × List String :=
  let init : Int × List String := (100, [])
  let afterFields :=
    (["Bill No", "Date", "Total Amount"]).foldl
      (fun acc field =>
        if pyFalsyGet data field then
          (acc.1 - 20, acc.2 ++ ["Missing field: " ++ field])
        else acc) init
  let afterHw :=
    if pyEqTrueGet data "IsHandwritten" then
      (afterFields.1 - 30, afterFields.2 ++ ["Handwritten content detected"])
    else afterFields
  let afterRes :=
    if width < 500 ∨ height < 500 then
      (afterHw.1 - 10, afterHw.2 ++ ["Image resolution is too low (below 500x500)"])
    else afterHw
  (max 0 (min afterRes.1 100), afterRes.2)

/-- The three key fields the scorer checks for presence, in the source's
order (the literal list on app.py line 36). -/
def scoredFields : List String := ["Bill No", "Date", "Total Amount"]

/-- The key fields the scorer treats as missing, in check order. -/
def missingFields (data : List (String × JVal)) : List String :=
  scoredFields.filter (fun f => pyFalsyGet data f)

/-- Closed form of the scorer: the score is `clamp(100 - deductions, 0, 100)`
and the reasons list is missing-field reasons (in field order), then the
handwriting reason, then the resolution reason. -/
theorem calc_score_decomp (data : List (String × JVal)) (width height : Int) :
    calculate_legitimacy_score data width height =
      (max 0 (min (100 - 20 * ((missingFields data).length : Int)
          - (if pyEqTrueGet data "IsHandwritten" then 30 else 0)
          - (if width < 500 ∨ height < 500 then 10 else 0)) 100),
        (missingFields data).map (fun f => "Missing field: " ++ f)
          ++ (if pyEqTrueGet data "IsHandwritten" then ["Handwritten content detected"] else [])
          ++ (if width < 500 ∨ height < 500 then
                ["Image resolution is too low (below 500x500)"] else [])) := by
  unfold calculate_legitimacy_score missingFields scoredFields
  cases h1 : pyFalsyGet data "Bill No" <;>
    cases h2 : pyFalsyGet data "Date" <;>
      cases h3 : pyFalsyGet data "Total Amount" <;>
        cases h4 : pyEqTrueGet data "IsHandwritten" <;>
          by_cases h5 : width < 500 ∨ height < 500 <;>
            simp [h1, h2, h3, h4, h5]

/-! ## Model of Python stdlib `json.loads` (strict mode)

Numbers are decoded as exact decimal rationals; the non-standard
`NaN`/`Infinity` extension and surrogate-pair combining in `\uXXXX` escapes
are not modelled (none of the texts the extractor handles involve them). -/

/-- JSON whitespace accepted between tokens. -/
def isJsonWs (c : Char) : Bool := c == ' ' || c == '\t' || c == '\n' || c == '\r'

/-- Drop leading JSON whitespace. -/
def skipWs : List Char → List Char
  | [] => []
  | c :: cs => if isJsonWs c then skipWs cs else c :: cs

/-- Value of a hex digit. -/
def hexVal (c : Char) : Option Nat :=
  if '0' ≤ c ∧ c ≤ '9' then some (c.toNat - 48)
  else if 'a' ≤ c ∧ c ≤ 'f' then some (c.toNat - 97 + 10)
  else if 'A' ≤ c ∧ c ≤ 'F' then some (c.toNat - 65 + 10)
  else none

/-- Parse the body of a JSON string after the opening quote: the decoded
characters and the rest of the input after the closing quote.  Strict mode
rejects unescaped control characters. -/
def parseJStr : Nat → List Char → Option (List Char × List Char)
  | 0, _ => none
  | _, [] => none
  | fuel + 1, c :: cs =>
    if c == '"' then some ([], cs)
    else if c == '\\' then
      match cs with
      | [] => none
      | e :: cs2 =>
        let dec : Option (Char × List Char) :=
          if e == '"' then some ('"', cs2)
          else if e == '\\' then some ('\\', cs2)
          else if e == '/' then some ('/', cs2)
          else if e == 'b' then some (Char.ofNat 8, cs2)
          else if e == 'f' then some (Char.ofNat 12, cs2)
          else if e == 'n' then some ('\n', cs2)
          else if e == 'r' then some ('\r', cs2)
          else if e == 't' then some ('\t', cs2)
          else if e == 'u' then
            match cs2 with
            | h1 :: h2 :: h3 :: h4 :: cs3 =>
              match hexVal h1, hexVal h2, hexVal h3, hexVal h4 with
              | some a, some b, some c2, some d =>
                some (Char.ofNat (((a * 16 + b) * 16 + c2) * 16 + d), cs3)
              | _, _, _, _ => none
            | _ => none
          else none
        match dec with
        | some (ch, rest) => (parseJStr fuel rest).map (fun r => (ch :: r.1, r.2))
        | none => none
    else if c.toNat < 32 then none
    else (parseJStr fuel cs).map (fun r => (c :: r.1, r.2))

/-- Numeric value of a digit string. -/
def digitsToNat (ds : List Char) : Nat := ds.foldl (fun a c => a * 10 + (c.toNat - 48)) 0

/-- Parse a JSON number at the head of the input — the scanner regex
`-?(0|[1-9][0-9]*)(\.[0-9]+)?([eE][+-]?[0-9]+)?` with maximal munch — as an
exact decimal rational. -/
def parseNum (s : List Char) : Option (JVal × List Char) :=
  let signPart : Int × List Char :=
    match s with
    | '-' :: rest => (-1, rest)
    | _ => (1, s)
  match signPart.2 with
  | [] => none
  | c :: rest =>
    if c.isDigit then
      let intPart : List Char × List Char :=
        if c == '0' then ([c], rest)
        else signPart.2.span (fun d => d.isDigit)
      let fracPart : List Char × List Char :=
        match intPart.2 with
        | '.' :: r =>
          let ds := r.span (fun d => d.isDigit)
          if ds.1.isEmpty then ([], intPart.2) else (ds.1, ds.2)
        | _ => ([], intPart.2)
      let expPart : Int × List Char :=
        match fracPart.2 with
        | e :: r =>
          if e == 'e' || e == 'E' then
            let signedTail : Int × List Char :=
              match r with
              | '+' :: rr => (1, rr)
              | '-' :: rr => (-1, rr)
              | _ => (1, r)
            let ds := signedTail.2.span (fun d => d.isDigit)
            if ds.1.isEmpty then (0, fracPart.2)
            else (signedTail.1 * (digitsToNat ds.1 : Int), ds.2)
          else (0, fracPart.2)
        | _ => (0, fracPart.2)
      -- value = sign * (int.frac) * 10^exp, as the exact rational
      -- sign * mant * 10^(exp - |frac|) with mant the digits read as an integer
      let mant : Int := (digitsToNat intPart.1 * 10 ^ fracPart.1.length
        + digitsToNat fracPart.1 : Nat)
      let e : Int := expPart.1 - (fracPart.1.length : Int)
      let value : Rat :=
        if 0 ≤ e then mkRat (signPart.1 * mant * 10 ^ e.toNat) 1
        else mkRat (signPart.1 * mant) (10 ^ (-e).toNat)
      some (.num value, expPart.2)
    else none

mutual

/-- Parse one JSON value (after optional leading whitespace), returning it
with the unconsumed rest of the input.  `fuel` bounds the recursion depth;
`pyJsonLoads` supplies enough for any input. -/
def parseValue : Nat → List Char → Option (JVal × List Char)
  | 0, _ => none
  | fuel + 1, s =>
    match skipWs s with
    | [] => none
    | c :: cs =>
      if c == '{' then
        match skipWs cs with
        | '}' :: rest => some (.obj [], rest)
        | cs2 => parseMembers fuel cs2 []
      else if c == '[' then
        match skipWs cs with
        | ']' :: rest => some (.arr [], rest)
        | cs2 => parseElems fuel cs2 []
      else if c == '"' then
        (parseJStr (cs.length + 1) cs).map (fun r => (.str r.1.asString, r.2))
      else if c == 't' then
        match cs with
        | 'r' :: 'u' :: 'e' :: rest => some (.bool true, rest)
        | _ => none
      else if c == 'f' then
        match cs with
        | 'a' :: 'l' :: 's' :: 'e' :: rest => some (.bool false, rest)
        | _ => none
      else if c == 'n' then
        match cs with
        | 'u' :: 'l' :: 'l' :: rest => some (.null, rest)
        | _ => none
      else parseNum (c :: cs)

/-- Parse the members of an object from the first key onward, building the
dict with `dictSet` (a duplicate key overwrites the earlier binding, as when
Python's decoder assigns into the dict). -/
def parseMembers : Nat → List Char → List (String × JVal) →
    Option (JVal × List Char)
  | 0, _, _ => none
  | fuel + 1, s, acc =>
    match skipWs s with
    | '"' :: cs =>
      match parseJStr (cs.length + 1) cs with
      | none => none
      | some (key, rest) =>
        match skipWs rest with
        | ':' :: rest2 =>
          match parseValue fuel rest2 with
          | none => none
          | some (v, rest3) =>
            match skipWs rest3 with
            | ',' :: rest4 => parseMembers fuel rest4 (dictSet acc key.asString v)
            | '}' :: rest4 => some (.obj (dictSet acc key.asString v), rest4)
            | _ => none
        | _ => none
    | _ => none

/-- Parse the elements of a non-empty array from the first element onward. -/
def parseElems : Nat → List Char → List JVal → Option (JVal × List Char)
  | 0, _, _ => none
  | fuel + 1, s, acc =>
    match parseValue fuel s with
    | none => none
    | some (v, rest) =>
      match skipWs rest with
      | ',' :: rest2 => parseElems fuel rest2 (acc ++ [v])
      | ']' :: rest2 => some (.arr (acc ++ [v]), rest2)
      | _ => none

end

/-- Model of Python `json.loads`: parse one JSON value, allow surrounding
whitespace, and require the whole input to be consumed. -/
def pyJsonLoads (s : List Char) : Option JVal :=
  match parseValue (2 * s.length + 4) s with
  | some (v, rest) => if skipWs rest = [] then some v else none
  | none => none

/-! ## The extractor (`extract_bill_data`) -/

/-- Python `s.find(c)`: index of the first occurrence, `-1` when absent. -/
def pyFind (s : List Char) (c : Char) : Int :=
  match s.findIdx? (fun x => x == c) with
  | some i => (i : Int)
  | none => -1

/-- Python `s.rfind(c)`: index of the last occurrence, `-1` when absent. -/
def pyRfind (s : List Char) (c : Char) : Int :=
  match s.reverse.findIdx? (fun x => x == c) with
  | some i => (s.length : Int) - 1 - (i : Int)
  | none => -1

/-- Python `s[a:b]` for the in-range case `0 ≤ a ≤ b ≤ len(s)`, the only way
the extractor slices (its guard ensures the bounds). -/
def pySlice (s : List Char) (a b : Int) : List Char :=
  (s.drop a.toNat).take (b.toNat - a.toNat)

/-- Lines 79-81: compute the legitimacy assessment of the parsed dict and
store it under `legitimacy_score` / `legitimacy_reasons`. -/
def mergeLegitimacy (bill_data : List (String × JVal)) (width height : Int) :
    List (String × JVal) :=
  dictSet
    (dictSet bill_data "legitimacy_score"
      (.num ((calculate_legitimacy_score bill_data width height).1 : Rat)))
    "legitimacy_reasons"
    (.arr ((calculate_legitimacy_score bill_data width height).2.map .str))

/-- `BillOCRParser.extract_bill_data` (app.py lines 57-88), from the point
where the external model call either produced a response text (`Except.ok`)
or raised (`Except.error e`, with `e` the text of `str(e)`; the enclosing
`try` maps it to the `"API call failed: ..."` dict).  The function returns a
dict in every case — no exception escapes it. -/
def extract_bill_data (modelResult : Except String (List Char)) (width height : Int) :
    List (String × JVal) :=
  match modelResult with
  | .error e => [("error", .str ("API call failed: " ++ e))]
  | .ok response_text =>
    -- json_start = response_text.find('{'), json_end = response_text.rfind('}') + 1
    if pyFind response_text '{' ≥ 0 ∧
        pyRfind response_text '}' + 1 > pyFind response_text '{' then
      match pyJsonLoads (pySlice response_text (pyFind response_text '{')
          (pyRfind response_text '}' + 1)) with
      | some (.obj bill_data) => mergeLegitimacy bill_data width height
      | some _ =>
        -- `bill_data["legitimacy_score"] = ...` on a non-dict would raise
        -- TypeError, caught by the enclosing `except Exception` (line 87).
        -- The branch is unreachable: the candidate starts with `{`, so a
        -- successful parse is always a dict (`parse_brace_head_obj` below);
        -- the exact TypeError text is therefore not modelled.
        [("error", .str "API call failed: item assignment on a non-dict")]
      | none =>
        [("error", .str "Failed to parse JSON"),
         ("raw_response", .str response_text.asString)]
    else
      [("error", .str "No JSON found"),
       ("raw_response", .str response_text.asString)]

/-! ## Helper lemmas -/

/-- A character not in a list is found at no index. -/
theorem findIdx?_of_not_mem (l : List Char) (c : Char) (h : c ∉ l) :
    l.findIdx? (fun x => x == c) = none :=
  List.findIdx?_eq_none_iff.mpr (fun x hx => beq_eq_false_iff_ne.mpr (fun hxc => h (hxc ▸ hx)))

/-- A character at the head of a list is found at index 0. -/
theorem findIdx?_of_head (l : List Char) (c : Char) (h : l.head? = some c) :
    l.findIdx? (fun x => x == c) = some 0 := by
  cases l with
  | nil => simp at h
  | cons a t =>
    obtain rfl : a = c := by simpa using h
    simp [List.findIdx?_cons]

/-- `str.find` on prefix-object-suffix text: with no `'{'` in the prefix and
the object text opening with `'{'`, the first `'{'` is at the prefix's end. -/
theorem pyFind_concat (pre j suf : List Char) (c : Char)
    (hpre : c ∉ pre) (hhead : j.head? = some c) :
    pyFind (pre ++ j ++ suf) c = (pre.length : Int) := by
  have hnone := findIdx?_of_not_mem pre c hpre
  have hd : (j ++ suf).findIdx? (fun x => x == c) = some 0 := by
    apply findIdx?_of_head
    cases j with
    | nil => simp at hhead
    | cons a t => simpa using hhead
  unfold pyFind
  rw [List.append_assoc, List.findIdx?_append, hnone, Option.none_or, hd, Option.map_some']
  simp

/-- `str.rfind` on prefix-object-suffix text: with no `'}'` in the suffix and
the object text closing with `'}'`, the last `'}'` is the object's last
character. -/
theorem pyRfind_concat (pre j suf : List Char) (c : Char)
    (hsuf : c ∉ suf) (hlast : j.getLast? = some c) :
    pyRfind (pre ++ j ++ suf) c = (pre.length : Int) + (j.length : Int) - 1 := by
  have hnone := findIdx?_of_not_mem suf.reverse c (by simpa using hsuf)
  have hd : (j.reverse ++ pre.reverse).findIdx? (fun x => x == c) = some 0 := by
    apply findIdx?_of_head
    have hjr : j.reverse.head? = some c := by rw [List.head?_reverse]; exact hlast
    cases hjrev : j.reverse with
    | nil => rw [hjrev] at hjr; simp at hjr
    | cons a t =>
      rw [hjrev] at hjr
      simpa using hjr
  have hrev : (pre ++ j ++ suf).reverse = suf.reverse ++ (j.reverse ++ pre.reverse) := by
    simp [List.reverse_append]
  unfold pyRfind
  rw [hrev, List.findIdx?_append, hnone, Option.none_or, hd, Option.map_some']
  simp only [List.length_append, List.length_reverse]
  push_cast
  ring

/-- Slicing prefix-object-suffix text from the prefix's length for the
object's length yields exactly the object text. -/
theorem pySlice_concat (pre j suf : List Char) :
    pySlice (pre ++ j ++ suf) (pre.length : Int) ((pre.length : Int) + (j.length : Int)) = j := by
  unfold pySlice
  have h1 : ((pre.length : Int)).toNat = pre.length := Int.toNat_natCast _
  have h2 : (((pre.length : Int)) + (j.length : Int)).toNat = pre.length + j.length := by
    omega
  rw [List.append_assoc, h1, h2]
  have h3 : pre.length + j.length - pre.length = j.length := by omega
  rw [List.drop_left, h3, List.take_left]

/-- A nonnegative `str.find` result points at the sought character. -/
theorem pyFind_getElem (s : List Char) (c : Char) (i : Nat)
    (h : pyFind s c = (i : Int)) : s[i]? = some c := by
  cases hf : s.findIdx? (fun x => x == c) with
  | none =>
    simp only [pyFind, hf] at h
    omega
  | some k =>
    simp only [pyFind, hf] at h
    have hk : k = i := by exact_mod_cast h
    subst hk
    obtain ⟨hlt, hp, -⟩ := List.findIdx?_eq_some_iff_getElem.mp hf
    have hc : s[k] = c := by simpa using hp
    rw [List.getElem?_eq_getElem hlt, hc]

/-- A nonnegative `str.rfind` result points at the sought character. -/
theorem pyRfind_getElem (s : List Char) (c : Char) (i : Nat)
    (h : pyRfind s c = (i : Int)) : s[i]? = some c := by
  cases hf : s.reverse.findIdx? (fun x => x == c) with
  | none =>
    simp only [pyRfind, hf] at h
    omega
  | some k =>
    simp only [pyRfind, hf] at h
    obtain ⟨hlt, hp, -⟩ := List.findIdx?_eq_some_iff_getElem.mp hf
    have hlt2 : k < s.length := by simpa using hlt
    have hc : s.reverse[k] = c := by simpa using hp
    rw [List.getElem_reverse] at hc
    have hi : s.length - 1 - k = i := by omega
    rw [← hi]
    rw [List.getElem?_eq_getElem (by omega)]
    rw [← hc]

/-- Unfolding a dict lookup one binding at a time. -/
theorem dictGet_cons (a : String × JVal) (d : List (String × JVal)) (k : String) :
    dictGet (a :: d) k = if a.1 = k then some a.2 else dictGet d k := by
  by_cases h : a.1 = k <;> simp [dictGet, List.find?_cons, h]

/-- In-place overwrite of key `k` leaves lookups of other keys unchanged. -/
theorem dictGet_mapOverwrite_ne (d : List (String × JVal)) (k k' : String) (v : JVal)
    (h : k' ≠ k) :
    dictGet (d.map (fun p => if p.1 == k then (k, v) else p)) k' = dictGet d k' := by
  induction d with
  | nil => rfl
  | cons a d ih =>
    rw [List.map_cons, dictGet_cons, dictGet_cons, ih]
    by_cases hak : a.1 = k
    · have hne : ¬ k = k' := fun hh => h hh.symm
      simp [hak, hne]
    · simp [hak]

/-- In-place overwrite of an existing key `k`: looking up `k` yields the new
value. -/
theorem dictGet_mapOverwrite_self (d : List (String × JVal)) (k : String) (v : JVal)
    (h : d.any (fun p => p.1 == k) = true) :
    dictGet (d.map (fun p => if p.1 == k then (k, v) else p)) k = some v := by
  induction d with
  | nil => simp at h
  | cons a d ih =>
    rw [List.map_cons, dictGet_cons]
    by_cases hak : a.1 = k
    · simp [hak]
    · have hd : d.any (fun p => p.1 == k) = true := by
        simpa [List.any_cons, hak] using h
      have hfa : (if (a.1 == k) = true then ((k, v) : String × JVal) else a) = a := by
        simp [hak]
      rw [hfa, if_neg hak]
      exact ih hd

/-- Reading back through a dict assignment: the assigned key yields the new
value, any other key is untouched. -/
theorem dictGet_dictSet (d : List (String × JVal)) (k k' : String) (v : JVal) :
    dictGet (dictSet d k v) k' = if k' = k then some v else dictGet d k' := by
  induction d with
  | nil =>
    have hset : dictSet [] k v = [(k, v)] := rfl
    rw [hset, dictGet_cons]
    by_cases h : k' = k
    · simp [h]
    · have hne : ¬ k = k' := fun hh => h hh.symm
      simp [hne, h, dictGet]
  | cons a d ih =>
    by_cases hak : a.1 = k
    · have hany : (a :: d).any (fun p => p.1 == k) = true := by simp [hak]
      have hset : dictSet (a :: d) k v =
          (k, v) :: d.map (fun p => if p.1 == k then (k, v) else p) := by
        simp [dictSet, hany, hak]
      rw [hset, dictGet_cons]
      by_cases h : k' = k
      · subst h
        simp
      · have hne : ¬ k = k' := fun hh => h hh.symm
        rw [dictGet_mapOverwrite_ne d k k' v h, if_neg hne, if_neg h, dictGet_cons]
        have hne2 : ¬ a.1 = k' := fun hh => hne (hak ▸ hh)
        rw [if_neg hne2]
    · by_cases hany : d.any (fun p => p.1 == k) = true
      · have hset : dictSet (a :: d) k v =
            a :: d.map (fun p => if p.1 == k then (k, v) else p) := by
          simp [dictSet, List.any_cons, hany, hak]
        rw [hset, dictGet_cons]
        by_cases h : k' = k
        · rw [h, dictGet_mapOverwrite_self d k v hany, if_neg hak, if_pos rfl]
        · rw [dictGet_mapOverwrite_ne d k k' v h, if_neg h, dictGet_cons]
      · have hanyf : (d.any fun p => p.1 == k) = false := Bool.eq_false_iff.mpr hany
        have hset2 : dictSet d k v = d ++ [(k, v)] := by
          simp [dictSet, hanyf]
        have hset : dictSet (a :: d) k v = a :: dictSet d k v := by
          simp [dictSet, List.any_cons, hanyf, hak, hset2]
        rw [hset, dictGet_cons, ih]
        by_cases h : k' = k
        · subst h
          simp [hak]
        · simp [h, dictGet_cons]

/-- `pyEqTrueGet` characterised: Python `data.get(k) == True` holds exactly
for the boolean `true` and for numbers equal to `1`. -/
theorem pyEqTrueGet_iff (d : List (String × JVal)) (k : String) :
    pyEqTrueGet d k = true ↔
      dictGet d k = some (JVal.bool true) ∨ dictGet d k = some (JVal.num 1) := by
  unfold pyEqTrueGet
  cases hv : dictGet d k with
  | none => simp
  | some v => cases v <;> simp

/-- The "absent / `null` / empty" condition on a field of the parsed dict. -/
def absentNullOrEmpty (d : List (String × JVal)) (k : String) : Prop :=
  dictGet d k = none ∨ dictGet d k = some JVal.null ∨ dictGet d k = some (JVal.str "")

/-- An absent / null / empty field is falsy under `not data.get(field)`. -/
theorem pyFalsyGet_of_absentNullOrEmpty (d : List (String × JVal)) (k : String)
    (h : absentNullOrEmpty d k) : pyFalsyGet d k = true := by
  rcases h with h | h | h
  · simp [pyFalsyGet, h, pyTruthy]
  · simp [pyFalsyGet, h, pyTruthy]
  · simp [pyFalsyGet, h, pyTruthy]
    rfl

/-- A string that is not a missing-field reason for any scored field does not
occur among the missing-field reasons. -/
theorem notin_missing_reasons (data : List (String × JVal)) (s : String)
    (h : ∀ f ∈ scoredFields, "Missing field: " ++ f ≠ s) :
    s ∉ (missingFields data).map (fun f => "Missing field: " ++ f) := by
  intro hmem
  rcases List.mem_map.mp hmem with ⟨f, hf, heq⟩
  simp only [missingFields] at hf
  exact h f (List.mem_filter.mp hf).1 heq

/-- A successful `parseMembers` always produces an object value. -/
theorem parseMembers_obj (fuel : Nat) (s : List Char) (acc : List (String × JVal))
    (v : JVal) (rest : List Char) (h : parseMembers fuel s acc = some (v, rest)) :
    ∃ kvs, v = JVal.obj kvs := by
  induction fuel generalizing s acc with
  | zero => simp [parseMembers] at h
  | succ fuel ih =>
    simp only [parseMembers] at h
    split at h
    · split at h
      · simp at h
      · split at h
        · split at h
          · simp at h
          · split at h
            · exact ih _ _ h
            · obtain ⟨rfl, -⟩ : v = JVal.obj _ ∧ _ := by
                simpa [eq_comm] using h
              exact ⟨_, rfl⟩
            · simp at h
        · simp at h
    · simp at h

/-- A successful top-level parse of text whose first character is `{` is
always an object: the extractor's non-dict success branch is unreachable. -/
theorem parse_brace_head_obj (s : List Char) (v : JVal)
    (hhead : s.head? = some '{') (h : pyJsonLoads s = some v) :
    ∃ kvs, v = JVal.obj kvs := by
  obtain ⟨t, rfl⟩ : ∃ t, s = '{' :: t := by
    cases s with
    | nil => simp at hhead
    | cons a t =>
      obtain rfl : a = '{' := by simpa using hhead
      exact ⟨t, rfl⟩
  unfold pyJsonLoads at h
  cases hv : parseValue (2 * ('{' :: t).length + 4) ('{' :: t) with
  | none => rw [hv] at h; simp at h
  | some pr =>
    rw [hv] at h
    obtain ⟨w, rest⟩ := pr
    have hw : w = v := by
      by_cases hws : skipWs rest = []
      · simpa [hws] using h
      · simp [hws] at h
    subst hw
    rcases hfu : 2 * ('{' :: t).length + 4 with _ | fuel
    · omega
    · rw [hfu] at hv
      simp only [parseValue] at hv
      rw [show skipWs ('{' :: t) = '{' :: t from by simp [skipWs, isJsonWs]] at hv
      simp only [beq_self_eq_true, if_true] at hv
      split at hv
      · obtain ⟨rfl, -⟩ : w = JVal.obj [] ∧ _ := by
          simpa [eq_comm] using hv
        exact ⟨[], rfl⟩
      · exact parseMembers_obj fuel _ [] w rest hv

/-! ## Claim theorems about the scorer -/

/-- C2: for every parsed field mapping and every image size, the legitimacy
score is an integer in the closed interval [0, 100] (the clamp
`max(0, min(score, 100))` on app.py line 53). -/
theorem score_within_bounds (data : List (String × JVal)) (width height : Int) :
    0 ≤ (calculate_legitimacy_score data width height).1 ∧
      (calculate_legitimacy_score data width height).1 ≤ 100 := by
  rw [calc_score_decomp]
  exact ⟨le_max_left 0 _, max_le (by norm_num) (min_le_right _ _)⟩

/-- C1: with all three key fields absent/null/empty, `IsHandwritten` the
boolean `true`, and a sub-500 width or height, the deductions total 100, the
clamp takes the score to exactly 0, and the reasons list has exactly the five
entries in the fixed order missing-BillNo, missing-Date, missing-TotalAmount,
handwriting, resolution. -/
theorem score_zero_when_all_deductions (data : List (String × JVal)) (width height : Int)
    (h1 : absentNullOrEmpty data "Bill No")
    (h2 : absentNullOrEmpty data "Date")
    (h3 : absentNullOrEmpty data "Total Amount")
    (h4 : dictGet data "IsHandwritten" = some (JVal.bool true))
    (h5 : width < 500 ∨ height < 500) :
    calculate_legitimacy_score data width height =
      (0, ["Missing field: Bill No", "Missing field: Date", "Missing field: Total Amount",
           "Handwritten content detected",
           "Image resolution is too low (below 500x500)"]) := by
  have f1 := pyFalsyGet_of_absentNullOrEmpty _ _ h1
  have f2 := pyFalsyGet_of_absentNullOrEmpty _ _ h2
  have f3 := pyFalsyGet_of_absentNullOrEmpty _ _ h3
  have f4 : pyEqTrueGet data "IsHandwritten" = true :=
    (pyEqTrueGet_iff data "IsHandwritten").mpr (Or.inl h4)
  rw [calc_score_decomp]
  simp [missingFields, scoredFields, List.filter, f1, f2, f3, f4, h5]

/-- Witness for `score_zero_when_all_deductions`: a dict carrying only
`IsHandwritten: true`, on a 400×400 image. -/
theorem score_zero_when_all_deductions_witness :
    absentNullOrEmpty [("IsHandwritten", JVal.bool true)] "Bill No" ∧
    absentNullOrEmpty [("IsHandwritten", JVal.bool true)] "Date" ∧
    absentNullOrEmpty [("IsHandwritten", JVal.bool true)] "Total Amount" ∧
    dictGet [("IsHandwritten", JVal.bool true)] "IsHandwritten" = some (JVal.bool true) ∧
    ((400 : Int) < 500 ∨ (400 : Int) < 500) ∧
    calculate_legitimacy_score [("IsHandwritten", JVal.bool true)] 400 400 =
      (0, ["Missing field: Bill No", "Missing field: Date", "Missing field: Total Amount",
           "Handwritten content detected",
           "Image resolution is too low (below 500x500)"]) :=
  ⟨Or.inl rfl, Or.inl rfl, Or.inl rfl, rfl, Or.inl (by norm_num),
    score_zero_when_all_deductions [("IsHandwritten", JVal.bool true)] 400 400
      (Or.inl rfl) (Or.inl rfl) (Or.inl rfl) rfl (Or.inl (by norm_num))⟩

/-- C5: every absent/null/empty key field is counted missing; each missing
field contributes 20 points of deduction (the score closed form) and its
"Missing field: <name>" reason, and these reasons open the reasons list in
the fields' check order. -/
theorem missing_field_deductions (data : List (String × JVal)) (width height : Int) :
    (∀ f ∈ scoredFields, absentNullOrEmpty data f → f ∈ missingFields data) ∧
    ((calculate_legitimacy_score data width height).2).take (missingFields data).length
      = (missingFields data).map (fun f => "Missing field: " ++ f) ∧
    (calculate_legitimacy_score data width height).1
      = max 0 (min (100 - 20 * ((missingFields data).length : Int)
          - (if pyEqTrueGet data "IsHandwritten" then 30 else 0)
          - (if width < 500 ∨ height < 500 then 10 else 0)) 100) := by
  refine ⟨?_, ?_, ?_⟩
  · intro f hf hae
    simp only [missingFields]
    exact List.mem_filter.mpr ⟨hf, pyFalsyGet_of_absentNullOrEmpty _ _ hae⟩
  · rw [calc_score_decomp]
    show ((missingFields data).map (fun f => "Missing field: " ++ f) ++ _ ++ _).take _ = _
    rw [List.append_assoc]
    exact List.take_left' (by simp)
  · rw [calc_score_decomp]

/-- Witness for `missing_field_deductions`: a dict with only `Bill No`
present, on a 600×600 image — two fields missing, score 60. -/
theorem missing_field_deductions_witness :
    "Date" ∈ missingFields [("Bill No", JVal.str "10")] ∧
    ((calculate_legitimacy_score [("Bill No", JVal.str "10")] 600 600).2).take
        (missingFields [("Bill No", JVal.str "10")]).length
      = (missingFields [("Bill No", JVal.str "10")]).map (fun f => "Missing field: " ++ f) ∧
    (calculate_legitimacy_score [("Bill No", JVal.str "10")] 600 600).1 = 60 := by
  have h := missing_field_deductions [("Bill No", JVal.str "10")] 600 600
  exact ⟨h.1 "Date" (by decide) (Or.inl rfl), h.2.1, rfl⟩

/-- C6: the resolution rule is a single combined check: its reason occurs
exactly once in the reasons list when width < 500 or height < 500 (even when
both are), and not at all otherwise; the score deduction is a single 10. -/
theorem resolution_single_check (data : List (String × JVal)) (width height : Int) :
    ((calculate_legitimacy_score data width height).2).count
        "Image resolution is too low (below 500x500)"
      = (if width < 500 ∨ height < 500 then 1 else 0) ∧
    (calculate_legitimacy_score data width height).1
      = max 0 (min (100 - 20 * ((missingFields data).length : Int)
          - (if pyEqTrueGet data "IsHandwritten" then 30 else 0)
          - (if width < 500 ∨ height < 500 then 10 else 0)) 100) := by
  constructor
  · rw [calc_score_decomp]
    show ((missingFields data).map (fun f => "Missing field: " ++ f) ++ _ ++ _).count _ = _
    rw [List.count_append, List.count_append]
    have hmap : ((missingFields data).map (fun f => "Missing field: " ++ f)).count
        "Image resolution is too low (below 500x500)" = 0 :=
      List.count_eq_zero.mpr (notin_missing_reasons data _ (by decide))
    have c1 : (["Handwritten content detected"] : List String).count
        "Image resolution is too low (below 500x500)" = 0 := rfl
    have c2 : (["Image resolution is too low (below 500x500)"] : List String).count
        "Image resolution is too low (below 500x500)" = 1 := rfl
    by_cases hhw : pyEqTrueGet data "IsHandwritten" = true <;>
      by_cases hres : width < 500 ∨ height < 500 <;>
        simp [hmap, hhw, hres, c1, c2]
  · rw [calc_score_decomp]

/-- C4 as stated is refuted: with `IsHandwritten` the integer 1 — a truthy
value that is not the boolean `true` — the code still applies the 30-point
handwriting deduction, because Python evaluates `1 == True` to `True`
(`bool` is a subclass of `int`). -/
theorem handwritten_int_one_fires_deduction :
    dictGet [("Bill No", JVal.str "1"), ("Date", JVal.str "2024-05-01"),
        ("Total Amount", JVal.str "5"), ("IsHandwritten", JVal.num 1)] "IsHandwritten"
      = some (JVal.num 1) ∧
    calculate_legitimacy_score [("Bill No", JVal.str "1"), ("Date", JVal.str "2024-05-01"),
        ("Total Amount", JVal.str "5"), ("IsHandwritten", JVal.num 1)] 600 600
      = (70, ["Handwritten content detected"]) :=
  ⟨rfl, rfl⟩

/-- C4 amended: the handwriting deduction (reason "Handwritten content
detected", 30 points in the score closed form) is applied iff the stored
`IsHandwritten` value compares equal to Python's `True`: the boolean `true`
or a number equal to 1.  Other truthy values such as the string "true" do
not fire it. -/
theorem handwritten_deduction_iff (data : List (String × JVal)) (width height : Int) :
    ("Handwritten content detected" ∈ (calculate_legitimacy_score data width height).2 ↔
      (dictGet data "IsHandwritten" = some (JVal.bool true) ∨
        dictGet data "IsHandwritten" = some (JVal.num 1))) ∧
    (calculate_legitimacy_score data width height).1
      = max 0 (min (100 - 20 * ((missingFields data).length : Int)
          - (if pyEqTrueGet data "IsHandwritten" then 30 else 0)
          - (if width < 500 ∨ height < 500 then 10 else 0)) 100) := by
  constructor
  · rw [← pyEqTrueGet_iff, calc_score_decomp]
    have hmap : "Handwritten content detected"
        ∉ (missingFields data).map (fun f => "Missing field: " ++ f) :=
      notin_missing_reasons data _ (by decide)
    by_cases hhw : pyEqTrueGet data "IsHandwritten" = true <;>
      by_cases hres : width < 500 ∨ height < 500 <;>
        simp [hmap, hhw, hres]
  · rw [calc_score_decomp]

/-! ## Claim theorems about the extractor pipeline -/

/-- C3: a failing external model invocation is mapped to the Failure dict
`{"error": "API call failed: <message>"}`, with no `raw_response` key.  (The
embedded `extract_bill_data` is a total function returning a dict on every
input, mirroring the `try/except` that lets no exception escape.) -/
theorem model_failure_error_shape (e : String) (width height : Int) :
    extract_bill_data (Except.error e) width height
      = [("error", JVal.str ("API call failed: " ++ e))] ∧
    dictGet (extract_bill_data (Except.error e) width height) "raw_response" = none :=
  ⟨rfl, rfl⟩

/-- C7: prose around a brace-delimited JSON object is tolerated.  With no
`'{'` in the prefix and no `'}'` in the suffix, the first-`{`-to-last-`}`
slice is exactly the embedded object text, and the extractor succeeds with
exactly that object's fields (merged with the computed legitimacy data). -/
theorem extract_tolerates_surrounding_text (pre j suf : List Char)
    (kvs : List (String × JVal)) (width height : Int)
    (hpre : '{' ∉ pre) (hsuf : '}' ∉ suf)
    (hhead : j.head? = some '{') (hlast : j.getLast? = some '}')
    (hparse : pyJsonLoads j = some (JVal.obj kvs)) :
    extract_bill_data (Except.ok (pre ++ j ++ suf)) width height
      = mergeLegitimacy kvs width height := by
  have hfind := pyFind_concat pre j suf '{' hpre hhead
  have hrfind := pyRfind_concat pre j suf '}' hsuf hlast
  have hj : j ≠ [] := by
    intro hnil
    rw [hnil] at hhead
    simp at hhead
  have hjlen : 0 < j.length := List.length_pos.mpr hj
  have hend : pyRfind (pre ++ j ++ suf) '}' + 1 = (pre.length : Int) + (j.length : Int) := by
    rw [hrfind]; ring
  unfold extract_bill_data
  dsimp only
  rw [hfind, hend]
  rw [if_pos ⟨by positivity, by omega⟩]
  rw [pySlice_concat pre j suf, hparse]

/-- Witness for `extract_tolerates_surrounding_text`: the spec's example
input, noise before and after a one-field object, on a 1000×1000 image. -/
theorem extract_tolerates_surrounding_text_witness :
    ('{' ∉ "prefix noise ".toList) ∧ ('}' ∉ " trailing".toList) ∧
    pyJsonLoads "\x7b\"Bill No\":\"1\"\x7d".toList = some (JVal.obj [("Bill No", JVal.str "1")]) ∧
    extract_bill_data
        (Except.ok ("prefix noise ".toList ++ "\x7b\"Bill No\":\"1\"\x7d".toList ++ " trailing".toList))
        1000 1000
      = [("Bill No", JVal.str "1"), ("legitimacy_score", JVal.num 60),
         ("legitimacy_reasons",
          JVal.arr [JVal.str "Missing field: Date", JVal.str "Missing field: Total Amount"])] :=
  ⟨by decide, by decide, rfl,
    (extract_tolerates_surrounding_text "prefix noise ".toList "\x7b\"Bill No\":\"1\"\x7d".toList
        " trailing".toList [("Bill No", JVal.str "1")] 1000 1000
        (by decide) (by decide) rfl rfl rfl).trans rfl⟩

/-- C8: when the response has no `'{'`, or its last `'}'` is at or before its
first `'{'`, the extractor fails with "No JSON found" and carries the full
original text as `raw_response`. -/
theorem no_json_found (s : List Char) (width height : Int)
    (hcond : pyFind s '{' = -1 ∨ pyRfind s '}' ≤ pyFind s '{') :
    extract_bill_data (Except.ok s) width height
      = [("error", JVal.str "No JSON found"), ("raw_response", JVal.str s.asString)] := by
  have hguard : ¬ (pyFind s '{' ≥ 0 ∧ pyRfind s '}' + 1 > pyFind s '{') := by
    rcases hcond with h | h
    · rintro ⟨h1, -⟩
      omega
    · rintro ⟨h1, h2⟩
      have heq : pyRfind s '}' = pyFind s '{' := by omega
      have hi : pyFind s '{' = ((pyFind s '{').toNat : Int) := by omega
      have hopen := pyFind_getElem s '{' (pyFind s '{').toNat hi
      have hclose := pyRfind_getElem s '}' (pyFind s '{').toNat (heq.trans hi)
      rw [hopen] at hclose
      simp at hclose
  unfold extract_bill_data
  dsimp only
  rw [if_neg hguard]

/-- Witness for `no_json_found`: the spec's example "no braces here". -/
theorem no_json_found_witness :
    (pyFind "no braces here".toList '{' = -1 ∨
      pyRfind "no braces here".toList '}' ≤ pyFind "no braces here".toList '{') ∧
    extract_bill_data (Except.ok "no braces here".toList) 1000 1000
      = [("error", JVal.str "No JSON found"), ("raw_response", JVal.str "no braces here")] :=
  ⟨Or.inl rfl,
    (no_json_found "no braces here".toList 1000 1000 (Or.inl rfl)).trans rfl⟩

/-- C9: when a brace-delimited candidate is located but fails to parse as
JSON, the extractor fails with "Failed to parse JSON" and carries the full
original text — not the candidate substring — as `raw_response`. -/
theorem malformed_json (s : List Char) (width height : Int)
    (hguard : pyFind s '{' ≥ 0 ∧ pyRfind s '}' + 1 > pyFind s '{')
    (hparse : pyJsonLoads (pySlice s (pyFind s '{') (pyRfind s '}' + 1)) = none) :
    extract_bill_data (Except.ok s) width height
      = [("error", JVal.str "Failed to parse JSON"), ("raw_response", JVal.str s.asString)] := by
  unfold extract_bill_data
  dsimp only
  rw [if_pos hguard, hparse]

/-- Witness for `malformed_json`: the spec's example "{not valid json}". -/
theorem malformed_json_witness :
    (pyFind "{not valid json}".toList '{' ≥ 0 ∧
      pyRfind "{not valid json}".toList '}' + 1 > pyFind "{not valid json}".toList '{') ∧
    pyJsonLoads (pySlice "{not valid json}".toList (pyFind "{not valid json}".toList '{')
        (pyRfind "{not valid json}".toList '}' + 1)) = none ∧
    extract_bill_data (Except.ok "{not valid json}".toList) 1000 1000
      = [("error", JVal.str "Failed to parse JSON"),
         ("raw_response", JVal.str "{not valid json}")] :=
  ⟨by decide, rfl,
    (malformed_json "{not valid json}".toList 1000 1000 (by decide) rfl).trans rfl⟩

/-- C10: on a successful parse the pipeline stores the locally computed
legitimacy score and reasons into the parsed dict — overwriting any values
the model supplied under those keys — while every other key passes through
unchanged. -/
theorem local_score_overwrites_model_score (s : List Char) (width height : Int)
    (kvs : List (String × JVal))
    (hguard : pyFind s '{' ≥ 0 ∧ pyRfind s '}' + 1 > pyFind s '{')
    (hparse : pyJsonLoads (pySlice s (pyFind s '{') (pyRfind s '}' + 1))
      = some (JVal.obj kvs)) :
    dictGet (extract_bill_data (Except.ok s) width height) "legitimacy_score"
        = some (JVal.num ((calculate_legitimacy_score kvs width height).1 : Rat)) ∧
    dictGet (extract_bill_data (Except.ok s) width height) "legitimacy_reasons"
        = some (JVal.arr ((calculate_legitimacy_score kvs width height).2.map JVal.str)) ∧
    ∀ k, k ≠ "legitimacy_score" → k ≠ "legitimacy_reasons" →
      dictGet (extract_bill_data (Except.ok s) width height) k = dictGet kvs k := by
  have hres : extract_bill_data (Except.ok s) width height
      = mergeLegitimacy kvs width height := by
    unfold extract_bill_data
    dsimp only
    rw [if_pos hguard, hparse]
  rw [hres]
  unfold mergeLegitimacy
  refine ⟨?_, ?_, ?_⟩
  · rw [dictGet_dictSet, if_neg (by decide), dictGet_dictSet, if_pos rfl]
  · rw [dictGet_dictSet, if_pos rfl]
  · intro k hk1 hk2
    rw [dictGet_dictSet, if_neg hk2, dictGet_dictSet, if_neg hk1]

/-- Witness for `local_score_overwrites_model_score`: the model's JSON
carries its own `legitimacy_score: 5`; the result holds the locally computed
60 instead, and `Bill No` passes through. -/
theorem local_score_overwrites_model_score_witness :
    (pyFind "\x7b\"Bill No\":\"1\",\"legitimacy_score\":5\x7d".toList '{' ≥ 0 ∧
      pyRfind "\x7b\"Bill No\":\"1\",\"legitimacy_score\":5\x7d".toList '}' + 1
        > pyFind "\x7b\"Bill No\":\"1\",\"legitimacy_score\":5\x7d".toList '{') ∧
    pyJsonLoads (pySlice "\x7b\"Bill No\":\"1\",\"legitimacy_score\":5\x7d".toList
        (pyFind "\x7b\"Bill No\":\"1\",\"legitimacy_score\":5\x7d".toList '{')
        (pyRfind "\x7b\"Bill No\":\"1\",\"legitimacy_score\":5\x7d".toList '}' + 1))
      = some (JVal.obj [("Bill No", JVal.str "1"), ("legitimacy_score", JVal.num 5)]) ∧
    dictGet (extract_bill_data
        (Except.ok "\x7b\"Bill No\":\"1\",\"legitimacy_score\":5\x7d".toList) 1000 1000)
        "legitimacy_score" = some (JVal.num 60) ∧
    dictGet (extract_bill_data
        (Except.ok "\x7b\"Bill No\":\"1\",\"legitimacy_score\":5\x7d".toList) 1000 1000)
        "Bill No" = some (JVal.str "1") := by
  have h := local_score_overwrites_model_score
    "\x7b\"Bill No\":\"1\",\"legitimacy_score\":5\x7d".toList 1000 1000
    [("Bill No", JVal.str "1"), ("legitimacy_score", JVal.num 5)] (by decide) rfl
  exact ⟨by decide, rfl, h.1.trans rfl, (h.2.2 "Bill No" (by decide) (by decide)).trans rfl⟩
